import Mathlib

/-!
Verification development for the `view-cache2` template-management library
(src/index.js, src/lib/utils.js).

The JavaScript source is embedded shallowly:

* JS objects used as string-keyed records become association lists
  (`SMap`) with leftmost-binding-wins lookup; `_.extend(a, b)` (later
  source wins) is list append with the overriding map in front, and
  `_.defaults(a, b)` (earlier source wins) is append with the earlier
  map in front.
* `undefined` / absent fields become `Option`; JS string truthiness
  (where `""` is falsy) is the `truthy` predicate.
* Mutation is explicit state passing: `Template` instance state is the
  `TState` structure and every mutating method returns the new state.
* Code that can throw returns `Except String`.

External collaborators absent from src/ (the `layouts`, `load-templates`,
`parser-front-matter`, `engine-noop`/`engine-lodash`, `engine-cache` and
`config-cache` npm modules, and the `pickPartial` / `pickDelims` /
`isPartial` / `isLayout` utilities whose definitions are missing from
src/lib/utils.js although src/index.js calls them) are modelled from the
spec; each such definition carries a `Modelled from the spec:` comment.
Everything else is translated directly from the source.
-/

namespace ViewCache

/-- String-keyed association map; leftmost binding wins on lookup,
mirroring a JS object where we always put the overriding source first. -/
abbrev SMap := List (String × String)

/-- Lookup in an `SMap` (first binding wins). -/
def sget (m : SMap) (k : String) : Option String :=
  match m.find? (fun p => p.1 == k) with
  | some p => some p.2
  | none => none

/-- Embeds `hasOwnProperty` on an `SMap`. -/
def shas (m : SMap) (k : String) : Bool :=
  (m.find? (fun p => p.1 == k)).isSome

/-- Embeds `_.extend(target, src)` observed through lookups: bindings of `b`
override bindings of `a`. -/
def extendMap (a b : SMap) : SMap := b ++ a

/-- Embeds `_.defaults(target, a, b)` observed through lookups: bindings of `a`
win over bindings of `b`. -/
def defaultsMap (a b : SMap) : SMap := a ++ b

/-- JS truthiness of a possibly-absent string: `undefined` and `""` are
falsy. -/
def truthy : Option String → Bool
  | some s => s != ""
  | none => false

/-- Split a character list at the first occurrence of `pat`, returning
the part before and the part after the occurrence.  Structural
recursion, so concrete instances reduce inside the kernel (the core
`String` search functions do not). -/
def splitFirst (pat : List Char) : List Char → Option (List Char × List Char)
  | [] => if pat.isPrefixOf [] then some ([], []) else none
  | c :: rest =>
    if pat.isPrefixOf (c :: rest) then some ([], (c :: rest).drop pat.length)
    else
      match splitFirst pat rest with
      | some (b, a) => some (c :: b, a)
      | none => none

/-- Fuel-driven replace-all over character lists; the fuel
`s.length + 1` suffices for any non-empty pattern. -/
def replaceFuel (pat repl : List Char) : Nat → List Char → List Char
  | 0, s => s
  | fuel + 1, s =>
    match splitFirst pat s with
    | none => s
    | some (b, a) => b ++ repl ++ replaceFuel pat repl fuel a

/-- Replace every occurrence of `pat` in `s` with `repl` (the string
substitution primitive of the embedding). -/
def replaceAllStr (s pat repl : String) : String :=
  String.mk (replaceFuel pat.toList repl.toList (s.toList.length + 1) s.toList)

/-- Fuel-driven split over character lists. -/
def splitOnFuel (sep : List Char) : Nat → List Char → List (List Char)
  | 0, s => [s]
  | fuel + 1, s =>
    match splitFirst sep s with
    | none => [s]
    | some (b, a) => b :: splitOnFuel sep fuel a

/-- Embeds `String.splitOn` for non-empty separators, kernel-reducible. -/
def splitOnStr (s sep : String) : List String :=
  (splitOnFuel sep.toList (s.toList.length + 1) s.toList).map String.mk

/-- Embeds `String.startsWith`, kernel-reducible. -/
def startsWithStr (s pre : String) : Bool :=
  pre.toList.isPrefixOf s.toList

/-- Embeds `String.drop`, kernel-reducible. -/
def dropStr (s : String) (n : Nat) : String :=
  String.mk (s.toList.drop n)

/-- Per-template `options` object (`value.options` in the source).  The
boolean role flags conflate JS `false` with absent, which is sound for
this code because it only ever tests their truthiness. -/
structure TmplOptions where
  ext : Option String := none
  engine : Option String := none
  layout : Option String := none
  hasLayout : Bool := false
  isRenderable : Bool := false
  isLayout : Bool := false
  isPartialFlag : Bool := false
  deriving DecidableEq, Repr

/-- Embeds `_.extend({}, a, b)` on options objects: fields of `b` override
fields of `a`. -/
def extendOptions (a b : TmplOptions) : TmplOptions where
  ext := b.ext <|> a.ext
  engine := b.engine <|> a.engine
  layout := b.layout <|> a.layout
  hasLayout := a.hasLayout || b.hasLayout
  isRenderable := a.isRenderable || b.isRenderable
  isLayout := a.isLayout || b.isLayout
  isPartialFlag := a.isPartialFlag || b.isPartialFlag

/-- The canonical template record (spec section 3, `TemplateRecord`).
`xlocalsRender` / `xlocalsPart` are the `_locals.render` / `_locals.partial`
buckets written by `Template.prototype.extendLocals`. -/
structure Tmpl where
  path : Option String := none
  content : Option String := none
  ext : Option String := none
  engine : Option String := none
  layout : Option String := none
  data : Option SMap := none
  locals : Option SMap := none
  options : TmplOptions := {}
  origContent : Option String := none
  delimsD : Option (List String) := none
  xlocalsRender : SMap := []
  xlocalsPart : SMap := []
  deriving DecidableEq, Repr

/-- The `options`-shaped second argument of `utils.pickExt` (only its
`engine` and `ext` members are read). -/
structure ExtOpts where
  engine : Option String := none
  ext : Option String := none
  deriving DecidableEq, Repr

/-- Embeds `utils.formatExt`: prefix the extension with a dot when missing. -/
def formatExt (ext : String) : String :=
  match ext.toList with
  | [] => "." ++ ext
  | c :: _ => if c = '.' then ext else "." ++ ext

/-- The template/`options` part of `utils.pickExt` (src/lib/utils.js
lines 299-330), i.e. everything before the `thisArg.option('viewEngine')`
fallback.  Returns `some r` when one of the early `return ext` branches
fires (`r` is the JS return value, possibly `undefined`), and `none` when
control reaches the fallback.  Note the first branch returns
`template.ext`, not `template.engine`, exactly as in the source. -/
def pickExtCore (template : Option Tmpl) (opts : ExtOpts) : Option (Option String) :=
  match template with
  | none => none
  | some t =>
    if truthy t.engine then some t.ext
    else if truthy t.ext then some t.ext
    else if truthy t.options.engine then some t.options.engine
    else if truthy t.options.ext then some t.options.ext
    else if truthy opts.engine then some opts.engine
    else if truthy opts.ext then some opts.ext
    else none

/-- Embeds `utils.pickExt(template, options, thisArg)` with the `thisArg`
present (the three-argument call sites): falls back to the instance
`viewEngine` option run through `formatExt`. -/
def pickExt (template : Option Tmpl) (opts : ExtOpts) (viewEngine : Option String) : Option String :=
  match pickExtCore template opts with
  | some r => r
  | none =>
    match viewEngine with
    | some v => if v != "" then some (formatExt v) else some v
    | none => none

/-- Embeds `utils.pickExt(template, this)` as called inside
`Template.prototype.parse` (src/index.js line 629): only two arguments
are passed, so inside `pickExt` the `options` parameter is a copy of the
Template instance (which has no own `engine`/`ext` properties) and
`thisArg` is `undefined`; reaching the fallback dereferences
`undefined.option` and throws a TypeError. -/
def pickExtNoThis (template : Option Tmpl) : Except String (Option String) :=
  match pickExtCore template {} with
  | some r => .ok r
  | none => .error "TypeError: Cannot read property of undefined (thisArg.option in pickExt)"

/-- Process-wide option values read by the embedded code, with the
defaults installed by `Template.prototype.defaultOptions`. -/
structure TOpts where
  cacheOpt : Bool := true
  preprocessOpt : Bool := true
  preferLocals : Bool := false
  mergePartialsOpt : Bool := true
  viewEngine : Option String := some ".*"
  layoutTag : String := "body"
  layoutDelimOpen : String := "\x7b%"
  layoutDelimClose : String := "%\x7d"
  layoutOpt : Option String := none
  mergeFnSet : Bool := false
  deriving Repr

/-- The caller-supplied `locals` argument of `render`/`renderSync` and
the render context that `mergeFn` builds from it.  In JS this is a single
object; here the plain string bindings live in `vars` while the
specially-read members (`engine`, `ext`, `delims`, `helpers`,
`partials`) are separate fields. -/
structure Ctx where
  vars : SMap := []
  engine : Option String := none
  ext : Option String := none
  delims : Option (List String) := none
  helpers : List String := []
  partials : List (String × Option String) := []
  deriving Repr

/-- View of a `Ctx` as the `options` argument of `pickExt` (the JS code
passes the merged locals object there). -/
def Ctx.toExtOpts (l : Ctx) : ExtOpts := { engine := l.engine, ext := l.ext }

/-- Result of `utils.pickLayout`: the JS function returns either a layout
name string, or -- through the trailing `return val` of `pickFrom` -- the
last searched property object when no `layout` key was found anywhere
(`nonstr`), or `null` when the input is not an object (`nul`). -/
inductive LayoutPick
  | name (s : String)
  | nonstr
  | nul
  deriving DecidableEq, Repr

/-- Embeds `utils.pickLayout(value)` = `pickFrom(value, 'layout',
['data', 'locals', 'options'])` (src/lib/utils.js lines 133-135 and
420-447).  Own `layout` property first; then the first of
`data`/`locals`/`options` that owns a `layout` key; otherwise `pickFrom`
falls through to `return val`, where `val` holds the last present
property -- `options`, always present on records in this model -- so a
record with no layout reference yields the `options` object itself
(`nonstr`), not `null`. -/
def pickLayout (t : Tmpl) : LayoutPick :=
  match t.layout with
  | some s => .name s
  | none =>
    match t.data >>= fun d => sget d "layout" with
    | some s => .name s
    | none =>
      match t.locals >>= fun l => sget l "layout" with
      | some s => .name s
      | none =>
        match t.options.layout with
        | some s => .name s
        | none => .nonstr

/-- One entry of the layouts stack: the layout body and the name of the
next layout in the chain, if any. -/
structure LayoutRec where
  content : String
  next : Option String := none
  deriving DecidableEq, Repr

/-- Modelled from the spec: a `Layouts` instance from the external
`layouts` module (instantiated by `Template.prototype.lazyLayouts`, which
passes the layout delimiters and body tag but no default layout).  Spec
section 4.3: wraps content with the chain of named layouts. -/
structure LayoutEng where
  stack : List (String × LayoutRec) := []
  tag : String := "body"
  delimOpen : String := "\x7b%"
  delimClose : String := "%\x7d"
  defaultLayout : Option String := none
  deriving Repr

/-- The body-marker token substituted by layout application, e.g.
`\x7b% body %\x7d`. -/
def LayoutEng.marker (le : LayoutEng) : String :=
  le.delimOpen ++ " " ++ le.tag ++ " " ++ le.delimClose

/-- Result of one layout-engine render: the composed content, a
detected cycle (spec section 7, LayoutCycleError), or exhausted fuel --
the last constructor is proved unreachable below. -/
inductive LayoutRes
  | ok (content : Option String)
  | cyc (n : String)
  | nofuel
  deriving DecidableEq, Repr

/-- Modelled from the spec (section 4.3): recursive layout substitution.
Substitute the current content into the layout body marker; recurse into
the layout record's own `next` layout reference; stop at a layout with no
further reference; an unknown layout name degrades gracefully (content
passes through, spec section 7 LayoutNotFoundError); a previously visited
name is a cycle.  The visited set is threaded explicitly, as the spec's
design notes require. -/
def wrapChain (le : LayoutEng) : Nat → List String → String → Option String → LayoutRes
  | 0, _, _, _ => .nofuel
  | fuel + 1, visited, name, content =>
    if name ∈ visited then .cyc name
    else
      match le.stack.find? (fun p => p.1 == name) with
      | none => .ok content
      | some entry =>
        let newC := replaceAllStr entry.2.content le.marker (content.getD "")
        match entry.2.next with
        | none => .ok (some newC)
        | some m => wrapChain le fuel (name :: visited) m (some newC)

/-- Modelled from the spec: `layoutEngine.render(content, layout, opts)`
as invoked by `Template.prototype.applyLayout`.  A string layout argument
names the first layout; a non-string argument falls back to the engine's
default layout, which `opts.defaultLayout === false` (set for
partial-type records) suppresses. -/
def LayoutEng.renderL (le : LayoutEng) (content : Option String) (lay : LayoutPick)
    (defaultOff : Bool) : LayoutRes :=
  let name0 : Option String :=
    match lay with
    | .name s => some s
    | _ => if defaultOff then none else le.defaultLayout
  match name0 with
  | none => .ok content
  | some n => wrapChain le (le.stack.length + 1) [] n content

/-- Engine options; `_registerEngine` extends `{thisArg: this,
bindFunctions: true}` with the caller's options, so `thisArg` is the
Template instance (modelled `some ()`) unless later nulled by
`getEngine`. -/
structure EngOpts where
  thisArg : Option Unit := none
  bindFunctions : Bool := true
  deriving DecidableEq, Repr

/-- Behaviour of one call to an engine's asynchronous
`render(content, context, callback)`: either it throws synchronously or
it invokes the callback with `(err, res)`. -/
inductive EngineOutcome
  | throwsE (e : String)
  | callsBack (err : Option String) (res : Option String)

/-- An engine capability (spec section 3): async render, optional sync
render, options, helpers. -/
structure EngineCap where
  renderFn : Option String → Ctx → EngineOutcome
  renderSyncFn : Option (Option String → Ctx → Except String (Option String)) := none
  opts : EngOpts := {}
  helpers : List String := []

/-- A registered parser: `registerParser` stores `{parse}` or
`{parseSync}` for function arguments, or the object itself (with both
members) for object arguments such as the front-matter module. -/
structure ParserEntry where
  parseFn : Option (Tmpl → Tmpl) := none
  parseSyncFn : Option (Tmpl → Tmpl) := none

/-- The mutable state of a `Template` instance: the engine, parser,
delimiter and layout registries, the per-type template collections
(`this.cache`), the process-wide data (`this.cache.data`, owned by the
external `config-cache` module and modelled from the spec), the
`templateType` role lists, the generic helper registry (names only), the
options, and the uniqueid counter. -/
structure TState where
  engines : List (String × EngineCap) := []
  parsers : List (String × List ParserEntry) := []
  delims : List (String × List String) := []
  layoutSettings : List (String × LayoutEng) := []
  cache : List (String × List (String × Tmpl)) := []
  cacheData : SMap := []
  typeRenderable : List String := []
  typeLayout : List String := []
  typePart : List String := []
  helperNames : List String := []
  opts : TOpts := {}
  nextId : Nat := 0
  currentDelims : Option String := none

/-- Look up a plural collection on `this.cache`. -/
def TState.coll (st : TState) (plural : String) : List (String × Tmpl) :=
  match st.cache.find? (fun p => p.1 == plural) with
  | some p => p.2
  | none => []

/-- Look up one record in a plural collection (`this.cache[plural][key]`). -/
def TState.record (st : TState) (plural key : String) : Option Tmpl :=
  match (st.coll plural).find? (fun p => p.1 == key) with
  | some p => some p.2
  | none => none

/-- Store a record map into a collection (`extend(this.cache[plural],
template)`); new keys override old ones. -/
def TState.storeColl (st : TState) (plural : String) (entries : List (String × Tmpl)) : TState :=
  let merged := entries ++ (st.coll plural).filter (fun p => entries.all (fun q => q.1 != p.1))
  { st with cache := (plural, merged) :: st.cache.filter (fun p => p.1 != plural) }

/-- The extension argument of `applyLayout`: normally a string, but the
call `this.mergePartials(locals)` in `preprocess` passes the locals
object itself as `ext` (the source calls `mergePartials` with a single
argument), so a non-string key must be representable. -/
inductive ExtKey
  | str (s : String)
  | obj
  deriving DecidableEq, Repr

/-- Embeds `this.layoutSettings[ext]`. -/
def TState.layoutEngFor (st : TState) (k : ExtKey) : Option LayoutEng :=
  match k with
  | .str s =>
    match st.layoutSettings.find? (fun p => p.1 == s) with
    | some p => some p.2
    | none => none
  | .obj => none

/-- Modelled from the spec: `utils.isPartial`, called by `applyLayout`
but missing from src/lib/utils.js -- true when the record's options mark
it as a partial-role template (spec section 4.3: partials use a
different default-layout policy). -/
def isPartialRec (t : Tmpl) : Bool := t.options.isPartialFlag

/-- Modelled from the spec: `utils.isLayout`, called by `normalize` but
missing from src/lib/utils.js -- true when the record's options mark it
as a layout-role template. -/
def isLayoutRec (t : Tmpl) : Bool := t.options.isLayout

/-- Error message for a layout cycle (spec section 7,
LayoutCycleError). -/
def cycleMsg (n : String) : String :=
  "LayoutCycleError: layout cycle detected at " ++ n

/-- Embeds `Template.prototype.applyLayout(ext, template, locals)`
(src/index.js lines 307-327).  When a layout engine exists for `ext` and
the record is not yet marked, mark it (`template.options.hasLayout =
true`), suppress the default layout for partials, pick the layout name
with `utils.pickLayout` and render; otherwise return the record's
content unchanged.  The composed string is only returned -- the source
never writes it back into `template.content`. -/
def applyLayout (st : TState) (ext : ExtKey) (t : Tmpl) (_locals : Ctx) :
    Except String (Option String × Tmpl) :=
  let objContent := t.content
  match st.layoutEngFor ext with
  | some le =>
    if !t.options.hasLayout then
      let t1 := { t with options := { t.options with hasLayout := true } }
      let defaultOff := isPartialRec t
      match le.renderL objContent (pickLayout t) defaultOff with
      | .ok c => .ok (c, t1)
      | .cyc n => .error (cycleMsg n)
      | .nofuel => .error "layout fuel exhausted (proved unreachable)"
    else .ok (objContent, t)
  | none => .ok (objContent, t)

/-- Embeds `Template.prototype.lazyLayouts(ext, options)` (src/index.js lines
282-295): construct a `Layouts` instance for `ext` once.  Only the
layout delimiters and tag are passed to the instance; no default layout
is configured. -/
def lazyLayouts (st : TState) (ext : String) : TState :=
  if (st.layoutSettings.find? (fun p => p.1 == ext)).isSome then st
  else
    { st with
      layoutSettings :=
        (ext,
          { tag := st.opts.layoutTag
            delimOpen := st.opts.layoutDelimOpen
            delimClose := st.opts.layoutDelimClose }) :: st.layoutSettings }

/-- Embeds `Template.prototype.addDelims(ext, arr, layoutDelims, settings)`:
when `layoutDelims` is an array, prime the layout engine for `ext`;
store the generated delimiters under `ext` (the external `delims` module
that generates the regexes is represented by the raw array). -/
def addDelims (st : TState) (ext : String) (arr : List String)
    (layoutDelims : Option (List String)) : TState :=
  let st1 := match layoutDelims with
             | some _ => lazyLayouts st ext
             | none => st
  { st1 with delims := (ext, arr) :: st1.delims.filter (fun p => p.1 != ext) }

/-- Embeds `Template.prototype.getDelims(ext)`: exact key lookup, otherwise the
`currentDelims || 'default'` fallback.  The `ExtKey.obj` case covers the
`preprocess` branch that passes the engine object itself as the key. -/
def getDelims (st : TState) (k : ExtKey) : Option (List String) :=
  let fallbackKey := st.currentDelims.getD "default"
  match k with
  | .str s =>
    match st.delims.find? (fun p => p.1 == s) with
    | some p => some p.2
    | none =>
      match st.delims.find? (fun p => p.1 == fallbackKey) with
      | some p => some p.2
      | none => none
  | .obj =>
    match st.delims.find? (fun p => p.1 == fallbackKey) with
    | some p => some p.2
    | none => none

/-- Property-key view of a possibly-undefined extension: JS coerces
`undefined` used as a property key to the string `"undefined"`. -/
def keyOfOpt : Option String → ExtKey
  | some s => .str s
  | none => .str "undefined"

/-- Caller-supplied options of `Template.prototype.engine` that the
embedding reads. -/
structure EngRegOpts where
  delims : Option (List String) := none
  thisArg : Option Unit := none
  deriving Repr

/-- Embeds `Template.prototype._registerEngine(ext, fn, options)` (src/index.js
lines 684-702): format the extension, register the capability with
`opts = extend({thisArg: this, bindFunctions: true}, options)` (the
instance reference is modelled as `some ()`), add the optional
delimiters, and prime the layout engine for the extension. -/
def registerEngine (st : TState) (ext0 : String) (cap : EngineCap) (ropts : EngRegOpts) : TState :=
  let ext := formatExt ext0
  let cap1 := { cap with opts := { thisArg := ropts.thisArg <|> some (), bindFunctions := true } }
  let st1 := { st with engines := (ext, cap1) :: st.engines.filter (fun p => p.1 != ext) }
  let st2 := match ropts.delims with
             | some d => addDelims st1 ext d none
             | none => st1
  lazyLayouts st2 ext

/-- Embeds `Template.prototype.getEngine(ext)` (src/index.js lines 741-746):
fetch the engine from the cache and null out `engine.options.thisArg`.
The external `engine-cache` lookup is modelled from the spec (section
4.4): formatted-extension lookup with the universal `.*` engine as
fallback.  Because the registry stores the very object that is returned,
the assignment `engine.options.thisArg = null` is visible to later
lookups; the model therefore updates the stored entry as well. -/
def getEngine (st : TState) (ext : Option String) : Except String (EngineCap × TState) :=
  let found :=
    match ext.bind (fun s => st.engines.find? (fun p => p.1 == formatExt s)) with
    | some p => some p
    | none => st.engines.find? (fun p => p.1 == ".*")
  match found with
  | none => .error "TypeError: Cannot read property options of undefined (getEngine)"
  | some (k, e) =>
    let e1 := { e with opts := { e.opts with thisArg := none } }
    .ok (e1, { st with engines := st.engines.map (fun p => if p.1 == k then (p.1, e1) else p) })

/-- Embeds `Template.prototype.registerParser(ext, fn, ...)`: format the
extension (defaulting to `*`) and push the parser entry onto that
stack. -/
def registerParser (st : TState) (ext0 : String) (entry : ParserEntry) : TState :=
  let ext := formatExt ext0
  let cur := match st.parsers.find? (fun p => p.1 == ext) with
             | some p => p.2
             | none => []
  { st with parsers := (ext, cur ++ [entry]) :: st.parsers.filter (fun p => p.1 != ext) }

/-- Embeds `Template.prototype.getParsers(ext, sync)`: the stack registered for
the formatted extension, projected to sync or async functions.  A JS
`undefined` extension would throw on `ext[0]`, hence the `Except`. -/
def getParsersE (st : TState) (ext : Option String) (sync : Bool) :
    Except String (List (Tmpl → Tmpl)) :=
  match ext with
  | none => .error "TypeError: Cannot read property 0 of undefined (getParsers)"
  | some e0 =>
    let e := formatExt e0
    match st.parsers.find? (fun p => p.1 == e) with
    | none => .ok []
    | some p => .ok (p.2.filterMap (fun q => if sync then q.parseSyncFn else q.parseFn))

/-- Embeds `Template.prototype.trackType(plural, options)` (src/index.js lines
855-870): record the plural name under the roles its options declare; a
type with neither `isRenderable` nor `isLayout` defaults to partial. -/
def trackType (st : TState) (plural : String) (o : TmplOptions) : TState :=
  let st1 := if o.isRenderable then { st with typeRenderable := st.typeRenderable ++ [plural] } else st
  let st2 := if o.isLayout then { st1 with typeLayout := st1.typeLayout ++ [plural] } else st1
  if o.isPartialFlag || (!o.isRenderable && !o.isLayout) then
    { st2 with typePart := st2.typePart ++ [plural] }
  else st2

/-- A JS argument as received by `create` for its `plural` parameter:
a string, a missing argument, or some other value. -/
inductive JsArg
  | jstr (s : String)
  | jmissing
  | jother
  deriving DecidableEq, Repr

/-- The guard of `Template.prototype.create` (src/index.js lines
915-917): `if (typeof plural !== 'string') throw ...`.  True when the
call throws. -/
def createThrows : JsArg → Bool
  | .jstr _ => false
  | _ => true

/-- The state effect of `Template.prototype.create(type, plural,
options)` after the guard: initialize the collection if absent
(idempotent), track the role, and register the default helper under the
singular name when no helper of that name exists.  The generated
accessor methods are represented by the loader/normalize pipeline
below. -/
def create (st : TState) (type plural : String) (o : TmplOptions) : TState :=
  let st1 := if (st.cache.find? (fun p => p.1 == plural)).isSome then st
             else { st with cache := (plural, []) :: st.cache }
  let st2 := trackType st1 plural o
  if st2.helperNames.contains type then st2
  else { st2 with helperNames := st2.helperNames ++ [type] }

/-- Embeds `Template.prototype.id` / `utils.generateId`: a fresh `__id__`-prefixed
key from the external `uniqueid` counter, modelled by `nextId`. -/
def generateId (st : TState) : String × TState :=
  ("__id__" ++ toString st.nextId, { st with nextId := st.nextId + 1 })

/-- Embeds `path.basename`: the last `/`-separated component. -/
def basename (p : String) : String :=
  match (splitOnStr p "/").getLast? with
  | some b => b
  | none => p

/-- Embeds `path.extname`: the final dotted suffix of the basename, or the
empty string when there is none. -/
def extnameOf (p : String) : String :=
  match splitOnStr (basename p) "." with
  | [] => ""
  | [_] => ""
  | parts => "." ++ parts.getLastD ""

/-- Parse simple `key: value` front-matter lines. -/
def parseFrontMatterVars (front : String) : SMap :=
  (splitOnStr front "\n").filterMap (fun line =>
    match splitOnStr line ": " with
    | [k, v] => some (k, v)
    | _ => none)

/-- Modelled from the spec: the external `parser-front-matter` module
registered for the default extensions -- extracts front matter into
`record.data` (front matter wins over existing data keys, spec section
4.2) and strips it from the content. -/
def fmParseSync (t : Tmpl) : Tmpl :=
  match t.content with
  | none => t
  | some c =>
    if startsWithStr c "---\n" then
      match splitOnStr (dropStr c 4) "\n---\n" with
      | [] => t
      | [_] => t
      | front :: rest =>
        { t with
          content := some (String.intercalate "\n---\n" rest)
          data := some (extendMap (t.data.getD []) (parseFrontMatterVars front)) }
    else t

/-- Modelled from the spec: the external `parser-noop` module registered
for `*` -- the identity transform. -/
def noopParse (t : Tmpl) : Tmpl := t

/-- Parser entry for the front-matter module object (both `parse` and
`parseSync` members exist on the module, so `registerParser` stores the
object as-is). -/
def fmParserEntry : ParserEntry := { parseFn := some fmParseSync, parseSyncFn := some fmParseSync }

/-- Parser entry for the noop module. -/
def noopParserEntry : ParserEntry := { parseFn := some noopParse, parseSyncFn := some noopParse }

/-- Modelled from the spec: minimal Lo-Dash style interpolation used by
the default engine -- substitute each context binding for its
`<%= key %>` marker. -/
def substVars (vars : SMap) (s : String) : String :=
  vars.foldl (fun acc p => replaceAllStr acc ("<%= " ++ p.1 ++ " %>") p.2) s

/-- Modelled from the spec: the external `engine-lodash` capability
registered for the default extensions. -/
def lodashEngine : EngineCap where
  renderFn := fun c ctx => .callsBack none (some (substVars ctx.vars (c.getD "")))
  renderSyncFn := some (fun c ctx => .ok (some (substVars ctx.vars (c.getD ""))))

/-- Modelled from the spec: the external `engine-noop` capability
registered for `*` -- treats content as already final and passes it
through unmodified (spec section 4.4). -/
def noopEngine : EngineCap where
  renderFn := fun c _ => .callsBack none c
  renderSyncFn := some (fun c _ => .ok c)

/-- Render input: `render`/`renderSync`/`preprocess` accept either the
name of a cached template or a template-shaped object. -/
inductive TIn
  | str (s : String)
  | obj (t : Tmpl)

/-- Modelled from the spec: the external `load-templates` loader invoked
through `Template.prototype.load` (spec section 4.2).  A bare string
value becomes `{content: value}` with `path` defaulted to the key and
the caller's locals attached as the record's data (observed contract of
the repository's own tests); a record-shaped value is merged as-is with
`path` defaulted to the key.  The loader also resolves the extension
from the path, which is how records later present a usable `ext` to
`pickExt`. -/
def loaderLoad (key : String) (value : TIn) (locals : SMap) : Tmpl :=
  match value with
  | .str s =>
    { path := some key
      content := some s
      origContent := some s
      data := some locals
      ext := some (extnameOf key) }
  | .obj t =>
    let p := t.path.getD key
    { t with
      path := some p
      origContent := t.origContent <|> t.content
      ext := t.ext <|> some (extnameOf p)
      locals := if locals.isEmpty then t.locals else some (extendMap (t.locals.getD []) locals) }

/-- Embeds `Template.prototype.parse(template, stack)` as called from
`normalize` with an explicit sync stack (src/index.js lines 611-646).
The body unconditionally evaluates `utils.pickExt(template, this)` with
only two arguments before running the stack, so a record with no
template-level extension information throws a TypeError here. -/
def parseT (t : Tmpl) (stack : List (Tmpl → Tmpl)) : Except String Tmpl := do
  let _ ← pickExtNoThis (some t)
  .ok (stack.foldl (fun acc f => f acc) t)

/-- Register the layout record `v` (stored under `key`) with a layout
engine, modelled from the spec: the stack keeps the body and the
record's own further layout reference (spec section 4.3). -/
def setLayoutIn (le : LayoutEng) (key : String) (v : Tmpl) : LayoutEng :=
  let nxt := match pickLayout v with
             | .name s => some s
             | _ => none
  { le with stack := (key, { content := v.content.getD "", next := nxt }) :: le.stack }

/-- Apply `setLayoutIn` to the layout engine stored for `ext` in the
state (`this.layoutSettings[ext].setLayout(template)`). -/
def TState.setLayout (st : TState) (ext : String) (key : String) (v : Tmpl) : TState :=
  { st with
    layoutSettings := st.layoutSettings.map
      (fun p => if p.1 == ext then (p.1, setLayoutIn p.2 key v) else p) }

/-- Embeds `Template.prototype.normalize(template, options)` (src/index.js
lines 985-1019) for one loaded entry: merge the type options into the
record's options, rename the key, resolve the extension with `pickExt`,
prime the layout engine, run the sync parser stack through `parse`, and
register layout-role records with the layout engine.  The call
`utils.pickLayout(value)` at line 1002 discards its result and is a
no-op. -/
def normalizeEntry (st : TState) (key : String) (v0 : Tmpl) (o : TmplOptions) :
    Except String (String × Tmpl × TState) := do
  let v := { v0 with options := extendOptions o v0.options }
  let key1 := basename key
  let ext := pickExt (some v) { engine := v.options.engine, ext := v.options.ext } st.opts.viewEngine
  let st1 := lazyLayouts st (match keyOfOpt ext with | .str s => s | .obj => "undefined")
  let isL := isLayoutRec v
  let stack ← getParsersE st1 ext true
  let v2 ← parseT v stack
  let st2 := if isL then st1.setLayout (match keyOfOpt ext with | .str s => s | .obj => "undefined") key1 v2
             else st1
  .ok (key1, v2, st2)

/-- Embeds `normalize` over a whole loaded map. -/
def normalize (st : TState) (entries : List (String × Tmpl)) (o : TmplOptions) :
    Except String (List (String × Tmpl) × TState) := do
  match entries with
  | [] => .ok ([], st)
  | (k, v) :: rest => do
    let (k1, v1, st1) ← normalizeEntry st k v o
    let (tail, st2) ← normalize st1 rest o
    .ok ((k1, v1) :: tail, st2)

/-- Embeds `Template.prototype.extendLocals(key, template, locals)`
(src/index.js lines 1220-1224): copy the record (an `undefined` record
becomes the bare `{_locals: {}}` object) and merge the locals into the
named `_locals` bucket. -/
def extendLocalsT (which : String) (t : Tmpl) (locals : SMap) : Tmpl :=
  if which == "render" then { t with xlocalsRender := extendMap t.xlocalsRender locals }
  else { t with xlocalsPart := extendMap t.xlocalsPart locals }

/-- Embeds `Template.prototype.format(key, value, locals)` (src/index.js lines
1034-1044): load the value into the ephemeral `anonymous` collection
(with `isRenderable: true`), then fetch it back under the original key
and merge the render locals.  When renaming changed the key the fetch
yields `undefined` and `extendLocals` produces the bare record. -/
def format (st : TState) (key : String) (value : TIn) (locals : Ctx) :
    Except String (Tmpl × TState) := do
  let loaded := loaderLoad key value locals.vars
  let (entries, st1) ← normalize st [(key, loaded)] { isRenderable := true }
  let st2 := st1.storeColl "anonymous" entries
  let t := (st2.record "anonymous" key).getD {}
  .ok (extendLocalsT "render" t locals.vars, st2)

/-- Embeds `Template.prototype.mergeFn(template, locals)` (src/index.js lines
1235-1254).  With the `preferLocals` option false (the default) the
record's parsed `data` takes precedence over the record's `locals`
(`_.defaults({}, o, template.data, template.locals)`); the result is
then `extend(data, o, locals)`, so the call-site locals override
everything and the process-wide data object (owned by the external
`config-cache`, modelled as `cacheData`) is both the lowest-precedence
source and the mutated merge target.  A user-configured `mergeFn`
option (never set in this development) would replace this logic. -/
def mergeFn (st : TState) (t : Tmpl) (locals : Ctx) : Ctx × TState :=
  if st.opts.mergeFnSet then (locals, st)
  else
    let o : SMap :=
      if st.opts.preferLocals then defaultsMap (t.locals.getD []) (t.data.getD [])
      else defaultsMap (t.data.getD []) (t.locals.getD [])
    let vars := extendMap (extendMap st.cacheData o) locals.vars
    let helpers := if locals.helpers.isEmpty then st.helperNames else locals.helpers
    ({ locals with vars := vars, helpers := helpers },
     { st with cacheData := vars })

/-- Embeds `utils.pickCached(file, locals, thisArg)` (src/lib/utils.js lines
212-231) as called from `preprocess`: the source passes only two
arguments (`utils.pickCached(template, this)`), so inside the function
`thisArg` is `undefined` -- and the instance defines `templateType`, not
the `viewType` member the function reads.  A non-string input returns
`null` before `thisArg` is touched; a string input dereferences
`undefined.viewType` and throws. -/
def pickCached (file : TIn) (_thisArg : Option TState) : Except String (Option Tmpl) :=
  match file with
  | .obj _ => .ok none
  | .str _ => .error "TypeError: Cannot read property renderable of undefined (pickCached)"

/-- Modelled from the spec: `utils.pickPartial`, called by `preprocess`
but missing from src/lib/utils.js -- look a string key up across the
partial-role collections (spec section 4.5 RESOLVE_TEMPLATE); a
non-string input resolves nothing. -/
def pickPartialFn (st : TState) (file : TIn) : Option Tmpl :=
  match file with
  | .obj _ => none
  | .str name =>
    match st.typePart.findSome? (fun plural => st.record plural name) with
    | some t => some t
    | none => none

/-- Modelled from the spec: `utils.pickDelims`, called by `preprocess`
but missing from src/lib/utils.js -- a record's own declared delimiters
override the rest of the lookup chain (spec section 4.4). -/
def pickDelims (t : Tmpl) (_l : Ctx) : Option (List String) := t.delimsD

/-- Embeds `Template.prototype.mergePartials` (src/index.js lines 1057-1077) as
called from `preprocess`: the source passes a single argument, so `ext`
is the locals object (a non-string layout key) and the inner
`applyLayout` lookup always misses.  Walk every partial-role collection,
re-assign each record's content through `applyLayout`, fold the
partials' data and locals into the context, and collect the contents
into the `partials` map (or per-type maps when `mergePartials` is
disabled; both are the `partials` list in this model). -/
def mergePartialsFn (st : TState) (ext : ExtKey) :
    Except String (SMap × List (String × Option String) × TState) := do
  let step : (SMap × List (String × Option String) × TState) → String →
      Except String (SMap × List (String × Option String) × TState) :=
    fun acc type => do
      let (vars0, parts0, st0) := acc
      let coll := st0.coll type
      let folded ← coll.foldlM
        (fun (acc2 : SMap × List (String × Option String) × List (String × Tmpl)) p => do
          let (vars, parts, updated) := acc2
          let (c, t1) ← applyLayout st0 ext p.2 {}
          let t2 := { t1 with content := c }
          let vars1 := extendMap (extendMap vars (t2.data.getD [])) (t2.locals.getD [])
          .ok (vars1, (p.1, t2.content) :: parts, updated ++ [(p.1, t2)]))
        (vars0, parts0, [])
      let (vars1, parts1, updated) := folded
      .ok (vars1, parts1, st0.storeColl type updated)
  st.typePart.foldlM step ([], [], st)

/-- The triple returned by `preprocess`. -/
structure PreOut where
  content : Option String
  engine : EngineCap
  ctx : Ctx
  st : TState

/-- Embeds `Template.prototype.preprocess(template, locals)` (src/index.js
lines 1090-1150), the render pipeline up to but excluding engine
invocation: resolve a cached template (`pickCached`/`pickPartial`) or
load the input as an ephemeral anonymous template (`format`); merge the
render context (`mergeFn`); resolve the extension (`pickExt`); apply the
layout (`applyLayout`, which raises on a layout cycle); resolve engine
and delimiters; merge the partials.  Any throw inside these stages
propagates out of `preprocess`. -/
def preprocess (st0 : TState) (template0 : TIn) (locals0 : Ctx) : Except String PreOut := do
  let engineName := locals0.engine
  let delims0 := locals0.delims
  let tmpl? ←
    if st0.opts.cacheOpt then do
      let c ← pickCached template0 none
      match c with
      | some t => pure (some t)
      | none => pure (pickPartialFn st0 template0)
    else pure none
  let (template, st1) ←
    match tmpl? with
    | some t => pure (extendLocalsT "render" t locals0.vars, st0)
    | none => do
      let (key, stA) := generateId st0
      format stA key template0 locals0
  -- `content = template.content` is immediately superseded by the
  -- `applyLayout` assignment below, as in the source
  let _content0 := template.content
  let (ctx1, st2) := mergeFn st1 template locals0
  let delims1 := delims0 <|> pickDelims template ctx1
  let ext := pickExt (some template) ctx1.toExtOpts st2.opts.viewEngine
  let (content1, _t2) ← applyLayout st2 (keyOfOpt ext) template ctx1
  let st3 := match delims1 with
             | some d => addDelims st2 (match keyOfOpt ext with | .str s => s | .obj => "undefined") d none
             | none => st2
  let (engine, delims2, st4) ←
    if truthy engineName then do
      let en := formatExt (engineName.getD "")
      let (e, stB) ← getEngine st3 (some en)
      pure (e, getDelims stB .obj, stB)
    else do
      let (e, stB) ← getEngine st3 ext
      pure (e, getDelims stB (keyOfOpt ext), stB)
  let (mpVars, mpParts, st5) ← mergePartialsFn st4 .obj
  let ctx2 := { ctx1 with
                vars := extendMap ctx1.vars mpVars
                partials := mpParts
                delims := delims2 <|> ctx1.delims }
  .ok { content := content1, engine := engine, ctx := ctx2, st := st5 }

/-- Observable outcome of one `render` call: either a synchronous throw
escaped the method, or the callback was invoked with `(err, res)`. -/
inductive RenderOutcome
  | threw (e : String)
  | cbCalled (err : Option String) (res : Option String)
  deriving DecidableEq, Repr

/-- The `try { engine.render(...) } catch (err) { cb(err) }` tail of
`Template.prototype.render`: a synchronous engine throw is redirected to
the callback; when the engine invokes its callback, the inner callback
discards the engine's error argument and resolves the result through
`this._.helpers.resolve(res, cb)` (modelled from the spec: the external
`helper-cache` resolver passes the content to the callback). -/
def runEngineTry (engine : EngineCap) (content : Option String) (ctx : Ctx) : RenderOutcome :=
  match engine.renderFn content ctx with
  | .throwsE e => .cbCalled (some e) none
  | .callsBack _err res => .cbCalled none res

/-- Raw content handed to the engine when the `preprocess` option is
disabled. -/
def contentOfTIn : TIn → Option String
  | .str s => some s
  | .obj t => t.content

/-- Embeds `Template.prototype.render(content, locals, cb)` (src/index.js lines
1162-1185): fetch the `viewEngine` engine, run `preprocess` (outside any
try/catch -- a throw there escapes the method synchronously), then
invoke the engine inside try/catch. -/
def render (st0 : TState) (content0 : TIn) (locals : Ctx) : RenderOutcome × TState :=
  match getEngine st0 st0.opts.viewEngine with
  | .error e => (.threw e, st0)
  | .ok (engine0, st1) =>
    if st1.opts.preprocessOpt then
      match preprocess st1 content0 locals with
      | .error e => (.threw e, st1)
      | .ok pre => (runEngineTry pre.engine pre.content pre.ctx, pre.st)
    else (runEngineTry engine0 (contentOfTIn content0) locals, st1)

/-- Observable outcome of one `renderSync` call: a synchronous throw, an
error returned as a value (`catch (err) { return err; }`), or a
successful result. -/
inductive RenderSyncOutcome
  | threw (e : String)
  | returnedErr (e : String)
  | returnedOk (res : Option String)
  deriving DecidableEq, Repr

/-- The message of the missing-`renderSync` throw; JS stringifies the
engine object into the message. -/
def renderSyncMissingMsg : String :=
  "`.renderSync()` method not found on engine: \"[object Object]\"."

/-- Embeds `Template.prototype.renderSync(content, locals)` (src/index.js lines
1197-1217): like `render`, but after `preprocess` it throws when the
resolved engine has no own `renderSync` member, and wraps only the
engine invocation in try/catch, returning a caught error as a value. -/
def renderSync (st0 : TState) (content0 : TIn) (locals : Ctx) : RenderSyncOutcome × TState :=
  match getEngine st0 st0.opts.viewEngine with
  | .error e => (.threw e, st0)
  | .ok (engine0, st1) =>
    let step : Except String (Option String × EngineCap × Ctx × TState) :=
      if st1.opts.preprocessOpt then
        (preprocess st1 content0 locals).map (fun pre => (pre.content, pre.engine, pre.ctx, pre.st))
      else .ok (contentOfTIn content0, engine0, locals, st1)
    match step with
    | .error e => (.threw e, st1)
    | .ok (content, engine, ctx, st2) =>
      match engine.renderSyncFn with
      | none => (.threw renderSyncMissingMsg, st2)
      | some f =>
        match f content ctx with
        | .ok r => (.returnedOk r, st2)
        | .error e => (.returnedErr e, st2)

/-- The synchronous helper registered by `Template.prototype.defaultHelpers`
(src/index.js lines 215-221) for each created type, as invoked with a
key and locals: fetch `this.cache[plural][key]` (possibly `undefined`),
merge the locals with `extendLocals`, and `renderSync` the result.
There is no missing-key branch: an absent key flows straight into
`renderSync` as a bare `{_locals: ...}` record. -/
def defaultHelperInvoke (st : TState) (plural key : String) (locals : SMap) :
    RenderSyncOutcome × TState :=
  let part0 := st.record plural key
  let part1 := extendLocalsT "partial" (part0.getD {}) locals
  renderSync st (.obj part1) {}

/-- Embeds `Template.prototype.init` (src/index.js lines 64-82): the default
state of a fresh instance -- default options, default delimiters
(`addDelims('*', ['<%', '%>'], ['\x7b%', '%\x7d'])`), default template
types (`page`/`pages` renderable, `layout`/`layouts` layout,
`partial`/`partials` default role), default parsers (front matter for
`md`/`html`/`hbs`, noop for `*`) and default engines (lodash for
`md`/`html`/`hbs`, noop for `*`). -/
def initState : TState :=
  let st0 : TState := {}
  let st1 := addDelims st0 "*" ["<%", "%>"] (some ["\x7b%", "%\x7d"])
  let st2 := create st1 "page" "pages" { isRenderable := true }
  let st3 := create st2 "layout" "layouts" { isLayout := true }
  let st4 := create st3 "partial" "partials" {}
  let st5 := ["md", "html", "hbs"].foldl (fun s e => registerParser s e fmParserEntry) st4
  let st6 := registerParser st5 "*" noopParserEntry
  let st7 := ["md", "html", "hbs"].foldl (fun s e => registerEngine s e lodashEngine {}) st6
  registerEngine st7 "*" noopEngine {}

/-- Add one template through the generated plural accessor
(`this.load(plural, options)` applied to `(key, value, locals)`):
loader, `normalize`, then `extend(this.cache[plural], template)`. -/
def addTemplate (st : TState) (plural : String) (o : TmplOptions) (key : String)
    (value : TIn) (locals : SMap) : Except String TState := do
  let loaded := loaderLoad key value locals
  let (entries, st1) ← normalize st [(key, loaded)] o
  .ok (st1.storeColl plural entries)

/-! ### Concrete fixtures used by the claim theorems -/

/-- C1 fixture: a record with `options.ext = 'hbs'` and path `a.md`. -/
def recC1 : Tmpl := { path := some "a.md", options := { ext := some "hbs" } }

/-- C2 fixture: a record whose parsed front-matter data and locals both
define `name`. -/
def c2Tmpl : Tmpl :=
  { data := some [("name", "AAA")], locals := some [("name", "BBB")] }

/-- C3 fixture: one wrapping layout `l1`. -/
def c3Layout : LayoutEng :=
  { stack := [("l1", { content := "A \x7b% body %\x7d B" })] }

/-- C3 fixture: default state whose `.md` layout engine holds `l1`. -/
def c3State : TState := { initState with layoutSettings := [(".md", c3Layout)] }

/-- C3 fixture: a record declaring layout `l1`. -/
def c3Tmpl : Tmpl := { content := some "x", layout := some "l1" }

/-- C3 fixture: the record after its first `applyLayout` (marked with
`options.hasLayout`; its content is untouched). -/
def c3TmplMarked : Tmpl :=
  { c3Tmpl with options := { c3Tmpl.options with hasLayout := true } }

/-- C4 fixture: a layout named by nothing but the record options. -/
def c4Layout : LayoutEng :=
  { stack := [("opt", { content := "O \x7b% body %\x7d O" })] }

/-- C4 fixture state. -/
def c4State : TState := { initState with layoutSettings := [(".md", c4Layout)] }

/-- C4 fixture: no `layout` on the record, its data or its locals -- only
on `options`. -/
def c4Tmpl : Tmpl :=
  { content := some "x", data := some [], locals := some [],
    options := { layout := some "opt" } }

/-- C4 fixture: `c4Tmpl` marked by `applyLayout`. -/
def c4TmplMarked : Tmpl :=
  { c4Tmpl with options := { c4Tmpl.options with hasLayout := true } }

/-- C4 witness fixture: a record with no layout reference anywhere. -/
def c4wTmpl : Tmpl := { content := some "x", data := some [], locals := some [] }

/-- C5 fixture: layouts `x` and `y` referencing each other. -/
def c5CycleEng : LayoutEng :=
  { stack := [("x", { content := "X \x7b% body %\x7d", next := some "y" }),
              ("y", { content := "Y \x7b% body %\x7d", next := some "x" })] }

/-- C5 fixture state. -/
def c5State : TState := { initState with layoutSettings := [(".md", c5CycleEng)] }

/-- C5 fixture: a record entering the cyclic chain at `x`. -/
def c5Tmpl : Tmpl := { content := some "c", layout := some "x" }

/-- C6 counterexample fixture: a renderable record whose layout chain is
the `x`/`y` cycle, with a path extension so parsing resolves. -/
def c6CexTmpl : Tmpl := { path := some "p.md", content := some "c", layout := some "x" }

/-- C6 witness fixture: an engine whose render throws synchronously. -/
def c6Engine : EngineCap where
  renderFn := fun _ _ => .throwsE "boom"
  renderSyncFn := none

/-- C6 witness fixture: default state with the throwing engine installed
for `.md`. -/
def c6State : TState := registerEngine initState "md" c6Engine {}

/-- C6/C7 witness fixture: a plain renderable record. -/
def c6Tmpl : Tmpl := { path := some "w.md", content := some "hello" }

/-- C7 fixture: an engine capability with no `renderSync` member. -/
def c7aEngine : EngineCap where
  renderFn := fun _ _ => .callsBack none none
  renderSyncFn := none

/-- C7 fixture state for the missing-`renderSync` half. -/
def c7aState : TState := registerEngine initState "md" c7aEngine {}

/-- C7 fixture: an engine whose synchronous render throws. -/
def c7bEngine : EngineCap where
  renderFn := fun _ _ => .callsBack none none
  renderSyncFn := some (fun _ _ => .error "sync boom")

/-- C7 fixture state for the caught-sync-throw half. -/
def c7bState : TState := registerEngine initState "md" c7bEngine {}

/-- The layout-name precedence chain exactly as the (amended) claim C4
words it: the record field, else `data.layout`, else `locals.layout`,
else `options.layout`, else no usable name.  Stated from the claim, to
be compared with the source translation `pickLayout`. -/
def layoutNameSpec (t : Tmpl) : LayoutPick :=
  match t.layout, t.data >>= fun d => sget d "layout",
        t.locals >>= fun l => sget l "layout", t.options.layout with
  | some s, _, _, _ => .name s
  | none, some s, _, _ => .name s
  | none, none, some s, _ => .name s
  | none, none, none, some s => .name s
  | none, none, none, none => .nonstr

/-! ### Helper lemmas -/

/-- Lookup distributes over map concatenation. -/
theorem sget_append (a b : SMap) (k : String) :
    sget (a ++ b) k = ((sget a k) <|> (sget b k)) := by
  unfold sget
  rw [List.find?_append]
  cases a.find? (fun p => p.1 == k) <;> simp

/-- With a duplicate-free visited list drawn from the stack keys and
fuel exceeding the number of distinct keys, `wrapChain` never exhausts
its fuel: every recursive step adds a fresh stack key to the visited
list. -/
theorem wrapChain_ne_nofuel (le : LayoutEng) :
    ∀ (fuel : Nat) (visited : List String) (name : String) (content : Option String),
      visited.Nodup → (∀ v ∈ visited, v ∈ le.stack.map Prod.fst) →
      (le.stack.map Prod.fst).toFinset.card < fuel + visited.length →
      wrapChain le fuel visited name content ≠ LayoutRes.nofuel := by
  intro fuel
  induction fuel with
  | zero =>
    intro visited name content hnd hsub hcard
    exfalso
    have h1 : visited.toFinset.card = visited.length := List.toFinset_card_of_nodup hnd
    have h2 : visited.toFinset ⊆ (le.stack.map Prod.fst).toFinset := by
      intro a ha
      rw [List.mem_toFinset] at ha ⊢
      exact hsub a ha
    have h3 := Finset.card_le_card h2
    omega
  | succ n ih =>
    intro visited name content hnd hsub hcard
    simp only [wrapChain]
    split
    · simp
    · rename_i hmem
      split
      · simp
      · rename_i entry hfind
        have hname : entry.1 = name := by
          have := List.find?_some hfind
          exact eq_of_beq this
        have hmemstack : name ∈ le.stack.map Prod.fst := by
          rw [List.mem_map]
          exact ⟨entry, List.mem_of_find?_eq_some hfind, hname⟩
        split
        · simp
        · apply ih
          · exact (List.nodup_cons).mpr ⟨hmem, hnd⟩
          · intro v hv
            rcases List.mem_cons.mp hv with h | h
            · exact h ▸ hmemstack
            · exact hsub v h
          · simp only [List.length_cons]
            omega

/-! ### Claim theorems -/

/-- C1: at the claim's own test vector -- a record with
`options.ext = 'hbs'` and path `a.md`, rendered with a call-site
`ext: 'jade'` -- the source's `pickExt` resolves `hbs`: the record's
per-template `options.ext` is consulted before the call-site option, and
the path extension is never consulted at all, contradicting both the
claimed precedence and the precedence documented in the function's own
header comment (`options.ext` first, `path.extname(value.path)` last). -/
theorem pickExt_record_options_beat_call_site :
    pickExt (some recC1) { ext := some "jade" } initState.opts.viewEngine = some "hbs"
    ∧ recC1.options.ext = some "hbs" ∧ recC1.path = some "a.md" :=
  ⟨rfl, rfl, rfl⟩

/-- C2: with the default options (`preferLocals` false, no user merge
function), whenever the record's parsed front-matter `data` binds a key,
the context built by `mergeFn` binds that key to the data value, whatever
the record's `locals` say -- provided the call-site locals (which
`extend(data, o, locals)` lets override everything) do not bind it. -/
theorem mergeFn_front_matter_precedence :
    ∀ (st : TState) (t : Tmpl) (l : Ctx) (d : SMap) (k v : String),
      st.opts.mergeFnSet = false → st.opts.preferLocals = false →
      t.data = some d → sget d k = some v → sget l.vars k = none →
      sget (mergeFn st t l).1.vars k = some v := by
  intro st t l d k v hmf hpl hdata hd hl
  unfold mergeFn
  rw [hmf, hpl, hdata]
  simp only [Bool.false_eq_true, if_false, extendMap, defaultsMap, Option.getD_some]
  rw [sget_append, hl, sget_append, sget_append, hd]
  rfl

/-- Witness for C2 at the claim's own test vector:
`record.data = {name: 'AAA'}`, `record.locals = {name: 'BBB'}` -- the
merged context's `name` is `AAA`. -/
theorem mergeFn_front_matter_precedence_witness :
    sget (mergeFn initState c2Tmpl {}).1.vars "name" = some "AAA" :=
  mergeFn_front_matter_precedence initState c2Tmpl {} [("name", "AAA")] "name" "AAA"
    rfl rfl rfl rfl rfl

/-- C8 counterexample: `create` with an empty-string plural name does
not throw -- the guard is `typeof plural !== 'string'`, which an empty
string passes, contradicting the claim that a non-empty string is
required. -/
theorem create_empty_plural_cex :
    createThrows (JsArg.jstr "") = false := rfl

/-- C8 (amended): `create` throws its ConfigurationError exactly when
the plural argument is not a string; any string -- including the empty
string -- is accepted. -/
theorem createThrows_iff_not_string :
    ∀ a : JsArg, createThrows a = false ↔ ∃ s, a = JsArg.jstr s := by
  intro a
  cases a with
  | jstr s => exact ⟨fun _ => ⟨s, rfl⟩, fun _ => rfl⟩
  | jmissing => simp [createThrows]
  | jother => simp [createThrows]

/-- C9: invoking the auto-registered inclusion helper with a key absent
from the collection does not log a warning and substitute empty
content: the registered sync helper (`defaultHelpers`) has no
missing-key branch, and `renderSync` on the resulting bare record throws
a TypeError (the record reaches `parse`, whose two-argument
`utils.pickExt(template, this)` call dereferences an undefined
`thisArg`), so an error escapes into the surrounding render.  The
variant implementing the claimed warn-and-empty behaviour
(`defaultAsyncHelpers`) is commented out at the `create` call site. -/
theorem default_helper_missing_key_throws :
    (defaultHelperInvoke initState "partials" "missing" []).1
      = RenderSyncOutcome.threw
          "TypeError: Cannot read property of undefined (thisArg.option in pickExt)"
    ∧ initState.record "partials" "missing" = none :=
  ⟨rfl, rfl⟩

/-- C3 counterexample: applying `applyLayout` twice to the same record
does not yield the output of applying it once.  The first application
wraps (`A x B`) and marks the record, but never stores the wrapped
string back into the record, so the second application returns the
original unwrapped content (`x`). -/
theorem applyLayout_twice_differs_cex :
    applyLayout c3State (.str ".md") c3Tmpl {} = .ok (some "A x B", c3TmplMarked)
    ∧ applyLayout c3State (.str ".md") c3TmplMarked {} = .ok (some "x", c3TmplMarked)
    ∧ some "A x B" ≠ c3TmplMarked.content :=
  ⟨rfl, rfl, by decide⟩

/-- C3 (amended): a second `applyLayout` on a marked record performs no
wrapping -- it returns the record's stored content unchanged and leaves
the record untouched -- and `applyLayout` never modifies the stored
content; hence there is no double-wrapping, but the second application's
output equals the first's only when the first left the content
unchanged (or when the caller wrote the composed string back, as
`mergePartials` does). -/
theorem applyLayout_marked_no_wrap :
    (∀ (st : TState) (e : ExtKey) (t : Tmpl) (l : Ctx),
        t.options.hasLayout = true → applyLayout st e t l = .ok (t.content, t))
    ∧ (∀ (st : TState) (e : ExtKey) (t : Tmpl) (l : Ctx) (out : Option String) (t1 : Tmpl),
        applyLayout st e t l = .ok (out, t1) → t1.content = t.content) := by
  constructor
  · intro st e t l hmark
    unfold applyLayout
    cases hle : st.layoutEngFor e with
    | none => rfl
    | some le => simp [hmark]
  · intro st e t l out t1 h
    unfold applyLayout at h
    cases hle : st.layoutEngFor e with
    | none =>
      rw [hle] at h
      cases h
      rfl
    | some le =>
      rw [hle] at h
      by_cases hmark : t.options.hasLayout
      · simp only [hmark, Bool.not_true, Bool.false_eq_true, if_false] at h
        cases h
        rfl
      · rw [Bool.not_eq_true] at hmark
        simp only [hmark, Bool.not_false, if_true] at h
        cases hr : le.renderL t.content (pickLayout t) (isPartialRec t) with
        | ok c =>
          rw [hr] at h
          cases h
          rfl
        | cyc n => rw [hr] at h; cases h
        | nofuel => rw [hr] at h; cases h

/-- Witness for C3 (amended): the marked fixture record passes through
`applyLayout` unchanged. -/
theorem applyLayout_marked_no_wrap_witness :
    applyLayout c3State (.str ".md") c3TmplMarked {} = .ok (c3TmplMarked.content, c3TmplMarked) :=
  applyLayout_marked_no_wrap.1 c3State (.str ".md") c3TmplMarked {} rfl

/-- C4 counterexample: a record with no `layout` field, no `data.layout`
and no `locals.layout` -- where the claim allows only the configured
default layout, and the fixture's layout engine has no default -- is
nevertheless wrapped, because `pickLayout` also consults
`options.layout`. -/
theorem pickLayout_options_layout_cex :
    c4Tmpl.layout = none
    ∧ (c4Tmpl.data >>= fun d => sget d "layout") = none
    ∧ (c4Tmpl.locals >>= fun l => sget l "layout") = none
    ∧ c4Layout.defaultLayout = none
    ∧ pickLayout c4Tmpl = .name "opt"
    ∧ applyLayout c4State (.str ".md") c4Tmpl {} = .ok (some "O x O", c4TmplMarked)
    ∧ some "O x O" ≠ c4Tmpl.content :=
  ⟨rfl, rfl, rfl, rfl, rfl, rfl, by decide⟩

/-- C4 (amended): the layout name is resolved by the precedence
`record.layout`, else `record.data.layout`, else `record.locals.layout`,
else `record.options.layout` (`layoutNameSpec`); when none of these
yields a name, `pickLayout` returns a non-name value, and -- the layout
engines constructed by `lazyLayouts` carrying no default layout -- the
content is returned without wrapping. -/
theorem pickLayout_precedence :
    (∀ t : Tmpl, pickLayout t = layoutNameSpec t)
    ∧ (∀ (st : TState) (s : String) (t : Tmpl) (l : Ctx) (le : LayoutEng),
        st.layoutEngFor (.str s) = some le → t.options.hasLayout = false →
        pickLayout t = .nonstr → le.defaultLayout = none →
        applyLayout st (.str s) t l
          = .ok (t.content, { t with options := { t.options with hasLayout := true } })) := by
  constructor
  · intro t
    unfold pickLayout layoutNameSpec
    cases t.layout with
    | some s => rfl
    | none =>
      cases t.data >>= fun d => sget d "layout" with
      | some s => rfl
      | none =>
        cases t.locals >>= fun l => sget l "layout" with
        | some s => rfl
        | none =>
          cases t.options.layout with
          | some s => rfl
          | none => rfl
  · intro st s t l le hle hmark hpick hdl
    unfold applyLayout
    rw [hle, hmark]
    simp only [Bool.not_false, if_true]
    unfold LayoutEng.renderL
    rw [hpick, hdl]
    cases isPartialRec t <;> rfl

/-- Witness for C4 (amended): the precedence equation at the
options-layout fixture, and the no-wrap branch at a record with no
layout reference at all. -/
theorem pickLayout_precedence_witness :
    pickLayout c4Tmpl = layoutNameSpec c4Tmpl
    ∧ applyLayout c4State (.str ".md") c4wTmpl {}
        = .ok (c4wTmpl.content, { c4wTmpl with options := { c4wTmpl.options with hasLayout := true } }) :=
  ⟨pickLayout_precedence.1 c4Tmpl,
   pickLayout_precedence.2 c4State ".md" c4wTmpl {} c4Layout rfl rfl rfl rfl⟩

/-- C5: layout resolution always terminates -- for every layout engine,
content and layout argument, the spec-modelled `renderL` (running
`wrapChain` with fuel `stack.length + 1`) yields either a composed
result or a LayoutCycleError, never fuel exhaustion -- and on the
concrete two-layout cycle `x -> y -> x` it reports the cycle, which
`applyLayout` surfaces as a LayoutCycleError instead of looping. -/
theorem layout_resolution_terminates :
    (∀ (le : LayoutEng) (c : Option String) (lay : LayoutPick) (d : Bool),
        (∃ s, le.renderL c lay d = .ok s) ∨ (∃ m, le.renderL c lay d = .cyc m))
    ∧ c5CycleEng.renderL (some "c") (.name "x") false = .cyc "x"
    ∧ applyLayout c5State (.str ".md") c5Tmpl {} = .error (cycleMsg "x") := by
  refine ⟨?_, rfl, rfl⟩
  intro le c lay d
  have key : ∀ (n : String) (c : Option String),
      (∃ s, wrapChain le (le.stack.length + 1) [] n c = .ok s)
      ∨ (∃ m, wrapChain le (le.stack.length + 1) [] n c = .cyc m) := by
    intro n c
    have hne := wrapChain_ne_nofuel le (le.stack.length + 1) [] n c List.nodup_nil
      (by intro v hv; cases hv)
      (by
        have h1 : (le.stack.map Prod.fst).toFinset.card ≤ (le.stack.map Prod.fst).length :=
          List.toFinset_card_le _
        have h2 : (le.stack.map Prod.fst).length = le.stack.length := List.length_map _ _
        simp only [List.length_nil]
        omega)
    cases hw : wrapChain le (le.stack.length + 1) [] n c with
    | ok s => exact Or.inl ⟨s, rfl⟩
    | cyc m => exact Or.inr ⟨m, rfl⟩
    | nofuel => exact absurd hw hne
  unfold LayoutEng.renderL
  cases lay with
  | name s => exact key s c
  | nonstr =>
    cases d with
    | false =>
      cases hdl : le.defaultLayout with
      | none => exact Or.inl ⟨c, rfl⟩
      | some n => exact key n c
    | true => exact Or.inl ⟨c, rfl⟩
  | nul =>
    cases d with
    | false =>
      cases hdl : le.defaultLayout with
      | none => exact Or.inl ⟨c, rfl⟩
      | some n => exact key n c
    | true => exact Or.inl ⟨c, rfl⟩

/-- C6 counterexample: a failure in the layout-application stage does
not reach the callback.  Rendering a record whose layout chain is the
`x`/`y` cycle makes `preprocess` raise the LayoutCycleError -- and
`render` calls `preprocess` outside its try/catch, so the error escapes
the method as a synchronous throw (`RenderOutcome.threw`) and the
callback is never invoked. -/
theorem render_preprocess_error_escapes_cex :
    (render c5State (.obj c6CexTmpl) {}).1 = .threw (cycleMsg "x") := by
  rfl

/-- C6 (amended): only the engine-invocation stage is protected -- when
`preprocess` succeeds, `render` always reaches the callback (a
synchronous engine throw is caught and passed to it as the error
argument), but failures in the earlier stages (template lookup,
normalization, layout application, context merging, i.e. inside
`preprocess`) escape `render` as synchronous throws. -/
theorem render_engine_stage_errors_to_callback :
    (∀ (st0 : TState) (c : TIn) (l : Ctx) (e0 : EngineCap) (st1 : TState) (pre : PreOut),
        getEngine st0 st0.opts.viewEngine = .ok (e0, st1) →
        st1.opts.preprocessOpt = true →
        preprocess st1 c l = .ok pre →
        (render st0 c l).1 = runEngineTry pre.engine pre.content pre.ctx)
    ∧ (∀ (eng : EngineCap) (cnt : Option String) (cx : Ctx),
        ∃ err res, runEngineTry eng cnt cx = .cbCalled err res) := by
  constructor
  · intro st0 c l e0 st1 pre hget hpp hpre
    unfold render
    simp only [hget, hpp, hpre, reduceIte]
  · intro eng cnt cx
    unfold runEngineTry
    cases eng.renderFn cnt cx with
    | throwsE e => exact ⟨some e, none, rfl⟩
    | callsBack err res => exact ⟨none, res, rfl⟩

/-- Witness for C6 (amended): with a synchronously-throwing engine
installed for `.md` and a record on which `preprocess` succeeds, the
engine's throw is delivered through the callback, not thrown. -/
theorem render_engine_stage_errors_to_callback_witness :
    (render c6State (.obj c6Tmpl) {}).1 = .cbCalled (some "boom") none := by
  have h := render_engine_stage_errors_to_callback.1 c6State (.obj c6Tmpl) {} _ _ _ rfl rfl rfl
  exact h.trans rfl

/-- C7: when the engine resolved for a `renderSync` call has no
`renderSync` member the call throws the missing-method error
(UnsupportedOperationError) instead of degrading; and when the engine
does have one and it throws, the error is caught and returned as a
value (`RenderSyncOutcome.returnedErr`), not propagated as a throw. -/
theorem renderSync_engine_contract :
    (∀ (st0 : TState) (c : TIn) (l : Ctx) (e0 : EngineCap) (st1 : TState) (pre : PreOut),
        getEngine st0 st0.opts.viewEngine = .ok (e0, st1) →
        st1.opts.preprocessOpt = true →
        preprocess st1 c l = .ok pre →
        pre.engine.renderSyncFn = none →
        (renderSync st0 c l).1 = .threw renderSyncMissingMsg)
    ∧ (∀ (st0 : TState) (c : TIn) (l : Ctx) (e0 : EngineCap) (st1 : TState) (pre : PreOut)
          (f : Option String → Ctx → Except String (Option String)) (e : String),
        getEngine st0 st0.opts.viewEngine = .ok (e0, st1) →
        st1.opts.preprocessOpt = true →
        preprocess st1 c l = .ok pre →
        pre.engine.renderSyncFn = some f →
        f pre.content pre.ctx = .error e →
        (renderSync st0 c l).1 = .returnedErr e) := by
  constructor
  · intro st0 c l e0 st1 pre hget hpp hpre hnone
    unfold renderSync
    simp only [hget, hpp, hpre, Except.map, hnone, reduceIte]
  · intro st0 c l e0 st1 pre f e hget hpp hpre hsome herr
    unfold renderSync
    simp only [hget, hpp, hpre, Except.map, hsome, herr, reduceIte]

/-- Witness for C7: both halves at concrete engines -- one registered
for `.md` without `renderSync` (the call throws the missing-method
message) and one whose `renderSync` throws (the error comes back as a
value). -/
theorem renderSync_engine_contract_witness :
    (renderSync c7aState (.obj c6Tmpl) {}).1 = .threw renderSyncMissingMsg
    ∧ (renderSync c7bState (.obj c6Tmpl) {}).1 = .returnedErr "sync boom" := by
  constructor
  · have h := renderSync_engine_contract.1 c7aState (.obj c6Tmpl) {} _ _ _ rfl rfl rfl rfl
    exact h
  · have h := renderSync_engine_contract.2 c7bState (.obj c6Tmpl) {} _ _ _ _ "sync boom"
      rfl rfl rfl rfl rfl
    exact h

/-- C10: `getEngine` is not a pure read.  Whenever the lookup succeeds,
the returned capability's `options.thisArg` has been set to null, and
the engine registry now stores that nulled capability under the found
key -- the `engine.options.thisArg = null` assignment mutates the very
object the cache holds, so later lookups observe it. -/
theorem getEngine_nulls_thisArg :
    ∀ (st : TState) (ext : Option String) (e : EngineCap) (st1 : TState),
      getEngine st ext = .ok (e, st1) →
      e.opts.thisArg = none
      ∧ ∃ k cap, (k, cap) ∈ st.engines
          ∧ e = { cap with opts := { cap.opts with thisArg := none } }
          ∧ (k, e) ∈ st1.engines := by
  intro st ext e st1 h
  unfold getEngine at h
  cases hfound :
      (match ext.bind (fun s => st.engines.find? (fun p => p.1 == formatExt s)) with
       | some p => some p
       | none => st.engines.find? (fun p => p.1 == ".*")) with
  | none => rw [hfound] at h; cases h
  | some kc =>
    rw [hfound] at h
    cases h
    have hmem : kc ∈ st.engines := by
      cases hb : ext.bind (fun s => st.engines.find? (fun p => p.1 == formatExt s)) with
      | some p =>
        rw [hb] at hfound
        cases hfound
        cases hx : ext with
        | none => rw [hx] at hb; cases hb
        | some s =>
          rw [hx] at hb
          exact List.mem_of_find?_eq_some hb
      | none =>
        rw [hb] at hfound
        exact List.mem_of_find?_eq_some hfound
    refine ⟨rfl, kc.1, kc.2, hmem, rfl, ?_⟩
    have : (kc.1, { kc.2 with opts := { kc.2.opts with thisArg := none } })
        ∈ st.engines.map
          (fun p => if p.1 == kc.1 then (p.1, { kc.2 with opts := { kc.2.opts with thisArg := none } }) else p) := by
      rw [List.mem_map]
      refine ⟨kc, hmem, ?_⟩
      simp
    exact this

/-- Witness for C10: on the freshly initialized state the `.md` engine
is registered with a bound `thisArg`; one `getEngine` call returns it
nulled and leaves the registry observably changed (the stored `thisArg`
of `.md` flips from bound to null). -/
theorem getEngine_nulls_thisArg_witness :
    ((getEngine initState (some ".md")).map (fun p => p.1.opts.thisArg) = .ok none)
    ∧ ((getEngine initState (some ".md")).toOption.map
          (fun p => p.2.engines.map (fun q => (q.1, q.2.opts.thisArg)))
        ≠ some (initState.engines.map (fun q => (q.1, q.2.opts.thisArg)))) := by
  obtain ⟨e, st1, hge⟩ : ∃ e st1, getEngine initState (some ".md") = .ok (e, st1) :=
    ⟨_, _, rfl⟩
  have h1 := getEngine_nulls_thisArg initState (some ".md") e st1 hge
  refine ⟨?_, by decide⟩
  rw [hge]
  simp only [Except.map]
  rw [h1.1]

end ViewCache
